import Mathlib

/-!
Verification of the multipart file-intake pipeline in
`src/trevor_sawler/toolkit/tools.go` against its specification.

The Go source is shallowly embedded below.  Pure string/byte manipulation is
translated directly; the stateful parts (the HTTP request, the filesystem,
the `crypto/rand` entropy source) are made explicit:

* an HTTP request is a value carrying a body size and the decoded
  `MultipartForm.File` map (as an association list in iteration order);
* the entropy consumed by `rand.Prime(rand.Reader, 64)` is an explicit
  stream `Nat → Nat`; theorems that depend on what `rand.Prime` can actually
  return carry the hypothesis that every drawn value is a 64-bit prime;
* filesystem writes performed by `os.Create` + `io.Copy` are returned as an
  explicit list of (path, content) pairs; the filesystem consulted by
  `CreateDirIfNotExist` is an association list of paths to entries.

Functions from the Go standard library that the source calls but that are
not part of this repository (`http.DetectContentType`, `strings.EqualFold`,
`filepath.Ext`, `r.ParseMultipartForm`, `os.Stat`/`os.MkdirAll`) are
modelled at their interface; each such definition documents what it models.
-/

/-- Source alphabet for random names (tools.go line 18):
`"abcdefghijklmnopqrstuvwxyzABCDEFGHIJKLMNOPQRSTUVWXYZ0123456789_+"`. -/
def randomStringSource : String :=
  "abcdefghijklmnopqrstuvwxyzABCDEFGHIJKLMNOPQRSTUVWXYZ0123456789_+"

/-- Embedding of `Tools.RandomString` (tools.go lines 31-51).  For each of
the `n` positions the Go code draws `p, _ := rand.Prime(rand.Reader, len(r))`
(with `len(r) = 64`, so a fresh 64-bit prime), takes `x := p.Uint64()`
(reduction mod 2^64) and picks `r[x % uint64(len(r))]`.  The entropy stream
is the explicit argument `primes`; position `i` consumes `primes i`. -/
def RandomString (primes : Nat → Nat) (n : Nat) : String :=
  String.mk ((List.range n).map (fun i =>
    randomStringSource.data.getD ((primes i % 2 ^ 64) % randomStringSource.data.length) ' '))

/-- Embedding of the `Tools` receiver struct (tools.go lines 22-27).
Go's `int` fields are modelled at their non-negative byte-count values. -/
structure Tools where
  MaxFileSize : Nat
  AllowedFileTypes : List String
  MaxJSONSize : Nat
  AllowUnknownFields : Bool
  deriving Repr, DecidableEq

/-- Embedding of `UploadedFile` (tools.go lines 54-58); `FileSize` is the
`int64` byte count actually copied. -/
structure UploadedFile where
  NewFileName : String
  OriginalFileName : String
  FileSize : Nat
  deriving Repr, DecidableEq

/-- One `*multipart.FileHeader` of the decoded form: the client-declared
file name, the client-declared Content-Type header and size metadata
(never consulted by the upload path), and the part's actual bytes. -/
structure FileHeader where
  filename : String
  declaredType : String
  declaredSize : Nat
  content : List UInt8
  deriving Repr, DecidableEq

/-- The inbound request: total body size in bytes, and the decoded
`r.MultipartForm.File` map (field name to its headers) in the order Go's
map iteration yields the fields. -/
structure Request where
  bodySize : Nat
  files : List (String × List FileHeader)
  deriving Repr, DecidableEq

/-- All file headers of the request, in the order the two nested `range`
loops of tools.go lines 109-110 visit them. -/
def allHeaders (r : Request) : List FileHeader :=
  (r.files.map Prod.snd).flatten

/-- Whitespace bytes skipped by the content sniffer ('\t','\n','\x0C','\r',' '). -/
def isSniffWS (b : UInt8) : Bool :=
  b == 9 || b == 10 || b == 12 || b == 13 || b == 32

/-- Binary data bytes per the mimesniff text heuristic:
0x00-0x08, 0x0B, 0x0E-0x1A, 0x1C-0x1F. -/
def isBinaryByte (b : UInt8) : Bool :=
  b ≤ 8 || b == 0x0B || (0x0E ≤ b && b ≤ 0x1A) || (0x1C ≤ b && b ≤ 0x1F)

/-- Model of `http.DetectContentType` (Go net/http sniff.go), restricted to
the signatures exercised here: it considers at most the first 512 bytes,
and after the tabled signatures fail it applies the trailing text
signature — skip leading whitespace, answer `text/plain; charset=utf-8`
when no remaining byte is a binary data byte — falling back to
`application/octet-stream`.  The tabled image/audio/archive signatures,
none of which match any input appearing in this development, are omitted. -/
def detectContentType (data : List UInt8) : String :=
  let data := data.take 512
  if ((data.dropWhile isSniffWS).all (fun b => !isBinaryByte b)) then
    "text/plain; charset=utf-8"
  else
    "application/octet-stream"

/-- ASCII lower-casing of one character. -/
def asciiLower (c : Char) : Char :=
  if 'A' ≤ c ∧ c ≤ 'Z' then Char.ofNat (c.toNat + 32) else c

/-- Model of `strings.EqualFold` at ASCII (every MIME type string involved
is ASCII): case-insensitive equality, folding character by character. -/
def equalFold (s t : String) : Bool :=
  s.data.map asciiLower == t.data.map asciiLower

/-- Helper for `filepathExt`: scan the reversed character list; stop empty
at a path separator, return the suffix from the dot on meeting a dot. -/
def extRevAux : List Char → List Char → List Char
  | _, [] => []
  | acc, c :: rest =>
    if c = '/' then []
    else if c = '.' then c :: acc
    else extRevAux (c :: acc) rest

/-- Model of `filepath.Ext` (Go path/filepath, Unix separator): the suffix
of the final path element beginning at its final dot, empty when the final
element has no dot. -/
def filepathExt (s : String) : String :=
  String.mk (extRevAux [] s.data.reverse)

/-- Model of `filepath.Join(dir, name)` for the paths used here: join with
the Unix separator. -/
def joinPath (dir name : String) : String :=
  dir ++ "/" ++ name

/-- The 512-byte sniff buffer of tools.go lines 123-124: `make([]byte, 512)`
then a single `infile.Read(buff)`.  The read count is discarded, so for a
part shorter than 512 bytes the zero fill of the remainder of the buffer
stays and is sniffed along with the content. -/
def sniffBuffer (content : List UInt8) : List UInt8 :=
  content.take 512 ++ List.replicate (512 - content.length) 0

/-- The content type the upload path sniffs for a part (tools.go line 131). -/
def sniffType (content : List UInt8) : String :=
  detectContentType (sniffBuffer content)

/-- The allow/deny decision of tools.go lines 130-141: with a non-empty
`AllowedFileTypes` the sniffed type must `EqualFold`-match some entry;
an empty list allows everything. -/
def typeAllowed (t : Tools) (content : List UInt8) : Bool :=
  if t.AllowedFileTypes.length > 0 then
    t.AllowedFileTypes.any (fun x => equalFold (sniffType content) x)
  else
    true

/-- Whether one part makes it through the per-file pipeline without error:
the sniff read must not hit `io.EOF` (non-empty part) and the sniffed type
must pass the policy.  (In this model `os.Create`/`io.Copy` succeed.) -/
def partPasses (t : Tools) (hdr : FileHeader) : Bool :=
  !hdr.content.isEmpty && typeAllowed t hdr.content

/-- Embedding of the per-file closure of `UploadFiles` (tools.go lines
112-182).  Stages, in source order: open the part; read into the 512-byte
buffer (`io.EOF`, hence an error return, on an empty part; otherwise a
single read of min(512, size) bytes, the rest of the buffer keeping its
zero fill); sniff and check the type policy; seek back to offset 0; pick
the new name (`RandomString(25)` + `filepath.Ext` under rename, else the
declared name); create the destination file and copy every byte from
offset 0.  On success it yields the record together with the (path,
content) pair written to disk. -/
def processOneFile (t : Tools) (renameFile : Bool) (entropy : Nat → Nat)
    (uploadDir : String) (hdr : FileHeader) :
    Except String (UploadedFile × String × List UInt8) :=
  if hdr.content.isEmpty then
    .error "EOF"
  else
    let fileType := detectContentType (sniffBuffer hdr.content)
    let allowed :=
      if t.AllowedFileTypes.length > 0 then
        t.AllowedFileTypes.any (fun x => equalFold fileType x)
      else
        true
    if !allowed then
      .error "the uploaded file type is not permitted"
    else
      let newName :=
        if renameFile then
          RandomString entropy 25 ++ filepathExt hdr.filename
        else
          hdr.filename
      .ok ({ NewFileName := newName, OriginalFileName := hdr.filename,
             FileSize := hdr.content.length },
           joinPath uploadDir newName, hdr.content)

/-- The loop of tools.go lines 109-189 over every header, threading the
accumulated records, the file index (each renamed file draws a fresh
25-prime block of entropy, modelled as `entropy i`), and the writes
performed so far.  Crucial detail of the source: the closure's results are
assigned back with `uploadedFiles, err = func(...)`, and the closure
returns `nil, err` on error — so on the first failing part the accumulated
record slice is replaced by nil and `return uploadedFiles, err` hands back
an empty sequence, while files already written stay on disk. -/
def uploadFilesAux (t : Tools) (renameFile : Bool) (entropy : Nat → Nat → Nat)
    (uploadDir : String) :
    List FileHeader → Nat → List UploadedFile → List (String × List UInt8) →
    List UploadedFile × Option String × List (String × List UInt8)
  | [], _, acc, ws => (acc, none, ws)
  | hdr :: rest, i, acc, ws =>
    match processOneFile t renameFile (entropy i) uploadDir hdr with
    | .error e => ([], some e, ws)
    | .ok (uf, w) =>
      uploadFilesAux t renameFile entropy uploadDir rest (i + 1) (acc ++ [uf]) (ws ++ [w])

/-- The optional-variadic rename flag of `UploadFiles`/`UploadOneFile`
(tools.go lines 83-86 and 63-66): defaults to true, else the first given
value. -/
def renameFlag (rename : List Bool) : Bool :=
  match rename with
  | [] => true
  | b :: _ => b

/-- Everything `UploadFiles` gives back: the receiver struct after the call
(it is mutated at tools.go lines 92-94), the returned record slice (nil
modelled as `[]`), the returned error, and the files written to disk. -/
structure BatchResult where
  tools : Tools
  files : List UploadedFile
  err : Option String
  writes : List (String × List UInt8)
  deriving Repr, DecidableEq

/-- Embedding of `Tools.UploadFiles` (tools.go lines 81-192).  In source
order: default `renameFile` to true unless an optional argument overrides
it; if `t.MaxFileSize == 0` set it to 1 GiB (a mutation of the receiver
that survives the call); `CreateDirIfNotExist(uploadDir)` (with the
spec-modelled `mkdirAll` below this never fails, so the model proceeds);
`r.ParseMultipartForm(int64(t.MaxFileSize))`.  The parse bound is modelled
from the spec: the decode is bounded by the policy size, so it fails — and
`UploadFiles` returns `"the uploaded file is too big"` — exactly when the
body exceeds `t.MaxFileSize`.  Then the per-file loop runs. -/
def UploadFiles (t : Tools) (r : Request) (uploadDir : String)
    (entropy : Nat → Nat → Nat) (rename : List Bool) : BatchResult :=
  let renameFile := renameFlag rename
  let t := if t.MaxFileSize = 0 then { t with MaxFileSize := 1024 * 1024 * 1024 } else t
  if t.MaxFileSize < r.bodySize then
    { tools := t, files := [], err := some "the uploaded file is too big", writes := [] }
  else
    let res := uploadFilesAux t renameFile entropy uploadDir (allHeaders r) 0 [] []
    { tools := t, files := res.1, err := res.2.1, writes := res.2.2 }

/-- Outcome of `UploadOneFile`: a record, an error return, or a Go runtime
panic (the unchecked `files[0]` on an empty slice). -/
inductive SingleOutcome where
  | ok (f : UploadedFile)
  | err (e : String)
  | panic (msg : String)
  deriving Repr, DecidableEq

/-- Embedding of `Tools.UploadOneFile` (tools.go lines 62-74): defaults the
rename flag, calls `UploadFiles`, propagates its error, and otherwise
executes `return files[0], nil` — an out-of-range panic when the slice is
empty, since the source never checks its length. -/
def UploadOneFile (t : Tools) (r : Request) (uploadDir : String)
    (entropy : Nat → Nat → Nat) (rename : List Bool) :
    Tools × SingleOutcome × List (String × List UInt8) :=
  let renameFile := renameFlag rename
  let b := UploadFiles t r uploadDir entropy [renameFile]
  match b.err with
  | some e => (b.tools, .err e, b.writes)
  | none =>
    match b.files with
    | [] => (b.tools, .panic "runtime error: index out of range", b.writes)
    | f :: _ => (b.tools, .ok f, b.writes)

/-- An entry of the modelled filesystem: a regular file, or a directory
with its permission bits. -/
inductive FSEntry where
  | file
  | dir (mode : Nat)
  deriving Repr, DecidableEq

/-- The filesystem consulted by `CreateDirIfNotExist`: paths mapped to
entries (first binding wins). -/
structure FileSystem where
  entries : List (String × FSEntry)
  deriving Repr, DecidableEq

/-- Model of `os.Stat` at the granularity this code observes: `none` models
the does-not-exist error, `some` a successful stat of the entry. -/
def FileSystem.stat (fs : FileSystem) (p : String) : Option FSEntry :=
  fs.entries.lookup p

/-- Split a character list at every '/' into its segments (always at least
one segment, like Go's `strings.Split`). -/
def splitOnSlash : List Char → List (List Char)
  | [] => [[]]
  | c :: rest =>
    match splitOnSlash rest with
    | [] => [[]]
    | seg :: segs => if c = '/' then [] :: seg :: segs else (c :: seg) :: segs

/-- Rejoin segments with '/' (inverse of `splitOnSlash`). -/
def joinSegs : List (List Char) → List Char
  | [] => []
  | [seg] => seg
  | seg :: rest => seg ++ '/' :: joinSegs rest

/-- The chain of paths `os.MkdirAll` creates for `p`: each '/'-separated
prefix of `p`, ending with `p` itself. -/
def pathChain (p : String) : List String :=
  let parts := splitOnSlash p.data
  (List.range parts.length).map (fun k => String.mk (joinSegs (parts.take (k + 1))))

/-- Modelled from the spec: `os.MkdirAll` is Go standard library, outside
src/.  Per its contract and the spec of the directory-ensure primitive, it
creates the path and every missing ancestor with the given mode, succeeds
when everything already exists as directories, and fails when a member of
the chain exists as a non-directory. -/
def mkdirAll (fs : FileSystem) (p : String) (mode : Nat) : FileSystem × Option String :=
  if (pathChain p).any (fun q =>
      match fs.stat q with
      | some .file => true
      | _ => false) then
    (fs, some "not a directory")
  else
    ({ entries := fs.entries ++
        ((pathChain p).filter (fun q => (fs.stat q).isNone)).map
          (fun q => (q, FSEntry.dir mode)) },
     none)

/-- Embedding of `Tools.CreateDirIfNotExist` (tools.go lines 195-209):
stat the path; only when stat reports does-not-exist run
`os.MkdirAll(path, 0755)` and propagate its error; in every other case —
including the path existing as a regular file — return nil. -/
def CreateDirIfNotExist (fs : FileSystem) (p : String) : FileSystem × Option String :=
  match fs.stat p with
  | none => mkdirAll fs p 0o755
  | some _ => (fs, none)

/-! ### Concrete test fixtures -/

/-- The allow-all policy with a 1024-byte bound, used by several concrete
evaluations. -/
def plainTools : Tools :=
  { MaxFileSize := 1024, AllowedFileTypes := [], MaxJSONSize := 0,
    AllowUnknownFields := false }

/-- A policy allowing only sniffed plain text. -/
def textOnlyTools : Tools :=
  { MaxFileSize := 4096, AllowedFileTypes := ["text/plain; charset=utf-8"],
    MaxJSONSize := 0, AllowUnknownFields := false }

/-- A request with two file parts: 512 bytes of text (sniffed as text even
through the full 512-byte buffer), then a 2-byte part (whose sniff buffer is
zero-padded and therefore sniffed as binary). -/
def twoPartRequest : Request :=
  { bodySize := 600,
    files := [("file",
      [{ filename := "a.txt", declaredType := "", declaredSize := 0,
         content := List.replicate 512 65 },
       { filename := "b.txt", declaredType := "", declaredSize := 0,
         content := [104, 105] }])] }

/-- A single-part request whose content is the five ASCII bytes of a short
text file. -/
def shortTextRequest : Request :=
  { bodySize := 5,
    files := [("file",
      [{ filename := "note.txt", declaredType := "text/plain", declaredSize := 5,
         content := [104, 101, 108, 108, 111] }])] }

/-! ### Modular exponentiation and a concrete 64-bit prime

`crypto/rand.Prime(rand.Reader, 64)` returns primes `p` with
`2^63 ≤ p < 2^64`.  To witness theorems quantified over such streams we
certify one concrete 64-bit prime, `2^64 - 2^32 + 1`, via Lucas's
primality criterion, using a fuel-bounded square-and-multiply evaluator
the kernel can run on 64-bit exponents. -/

/-- Square-and-multiply: `powModGo m fuel a b acc` computes
`acc * a ^ b % m` (up to congruence mod `m`) provided `b < 2 ^ fuel`. -/
def powModGo (m : Nat) : Nat → Nat → Nat → Nat → Nat
  | 0, _, _, acc => acc
  | fuel + 1, a, b, acc =>
    if b = 0 then acc
    else
      powModGo m fuel (a * a % m) (b / 2) (if b % 2 = 1 then acc * a % m else acc)

theorem powModGo_modEq (m : Nat) :
    ∀ fuel a b acc, b < 2 ^ fuel → powModGo m fuel a b acc ≡ acc * a ^ b [MOD m] := by
  intro fuel
  induction fuel with
  | zero =>
    intro a b acc hb
    have hb0 : b = 0 := Nat.lt_one_iff.mp (by simpa using hb)
    subst hb0
    simpa [powModGo] using Nat.ModEq.refl acc
  | succ fuel ih =>
    intro a b acc hb
    by_cases h0 : b = 0
    · subst h0; simpa [powModGo] using Nat.ModEq.refl acc
    · have hb2 : b / 2 < 2 ^ fuel := by
        apply Nat.div_lt_of_lt_mul
        calc b < 2 ^ (fuel + 1) := hb
        _ = 2 * 2 ^ fuel := by ring
      have IH := ih (a * a % m) (b / 2) (if b % 2 = 1 then acc * a % m else acc) hb2
      have h1 : (if b % 2 = 1 then acc * a % m else acc) ≡ acc * a ^ (b % 2) [MOD m] := by
        rcases Nat.mod_two_eq_zero_or_one b with h | h
        · simpa [h] using Nat.ModEq.refl acc
        · simpa [h] using Nat.mod_modEq (acc * a) m
      have h2 : (a * a % m) ^ (b / 2) ≡ (a * a) ^ (b / 2) [MOD m] :=
        (Nat.mod_modEq (a * a) m).pow _
      have h4 : acc * a ^ (b % 2) * (a * a) ^ (b / 2) = acc * a ^ b := by
        rw [← pow_two, ← pow_mul, mul_assoc, ← pow_add, Nat.mod_add_div]
      calc powModGo m (fuel + 1) a b acc
          = powModGo m fuel (a * a % m) (b / 2) (if b % 2 = 1 then acc * a % m else acc) := by
            simp [powModGo, h0]
        _ ≡ (if b % 2 = 1 then acc * a % m else acc) * (a * a % m) ^ (b / 2) [MOD m] := IH
        _ ≡ acc * a ^ (b % 2) * (a * a) ^ (b / 2) [MOD m] := h1.mul h2
        _ = acc * a ^ b := h4

theorem zmod7pow_eq (e r : Nat) (he : e < 2 ^ 64)
    (hc : powModGo 18446744069414584321 64 7 e 1 = r) :
    (7 : ZMod 18446744069414584321) ^ e = ((r : Nat) : ZMod 18446744069414584321) := by
  have h := powModGo_modEq 18446744069414584321 64 7 e 1 he
  rw [hc] at h
  have h7 : (7 : Nat) ^ e ≡ r [MOD 18446744069414584321] := by
    simpa using h.symm
  have hcast : (((7 : Nat) ^ e : Nat) : ZMod 18446744069414584321) =
      ((r : Nat) : ZMod 18446744069414584321) :=
    (ZMod.natCast_eq_natCast_iff _ _ _).mpr h7
  simpa using hcast

theorem zmod7pow_ne_one (e r : Nat) (he : e < 2 ^ 64)
    (hc : powModGo 18446744069414584321 64 7 e 1 = r)
    (hr : ¬ r % 18446744069414584321 = 1 % 18446744069414584321) :
    (7 : ZMod 18446744069414584321) ^ e ≠ 1 := by
  have h := zmod7pow_eq e r he hc
  intro hone
  rw [h] at hone
  have hcast : ((r : Nat) : ZMod 18446744069414584321) =
      ((1 : Nat) : ZMod 18446744069414584321) := by simpa using hone
  exact hr ((ZMod.natCast_eq_natCast_iff _ _ _).mp hcast)

set_option maxRecDepth 100000 in
/-- The number `2^64 - 2^32 + 1` is prime (Lucas's criterion with witness
7; `p - 1 = 2^32 * 3 * 5 * 17 * 257 * 65537`). -/
theorem goldilocks_prime : Nat.Prime 18446744069414584321 := by
  have hM : (18446744069414584321 : Nat) - 1 = 18446744069414584320 := by norm_num
  apply lucas_primality 18446744069414584321 7
  · rw [hM]
    have h := zmod7pow_eq 18446744069414584320 1 (by norm_num) (by rfl)
    simpa using h
  · intro q hq hdvd
    rw [hM] at hdvd ⊢
    have hfac : (18446744069414584320 : Nat) =
        2 ^ 32 * (3 * (5 * (17 * (257 * 65537)))) := by norm_num
    rw [hfac] at hdvd
    have hq2 : (2 : Nat).Prime := by norm_num
    have hq3 : (3 : Nat).Prime := by norm_num
    have hq5 : (5 : Nat).Prime := by norm_num
    have hq17 : (17 : Nat).Prime := by norm_num
    have hq257 : (257 : Nat).Prime := by norm_num
    have hq65537 : (65537 : Nat).Prime := by norm_num
    rcases (Nat.Prime.dvd_mul hq).mp hdvd with h | h
    · have hq' : q = 2 :=
        (Nat.prime_dvd_prime_iff_eq hq hq2).mp (hq.dvd_of_dvd_pow h)
      subst hq'
      have he : (18446744069414584320 : Nat) / 2 = 9223372034707292160 := by norm_num
      rw [he]
      exact zmod7pow_ne_one 9223372034707292160 18446744069414584320
        (by norm_num) (by rfl) (by decide)
    rcases (Nat.Prime.dvd_mul hq).mp h with h | h
    · have hq' : q = 3 := (Nat.prime_dvd_prime_iff_eq hq hq3).mp h
      subst hq'
      have he : (18446744069414584320 : Nat) / 3 = 6148914689804861440 := by norm_num
      rw [he]
      exact zmod7pow_ne_one 6148914689804861440 18446744065119617025
        (by norm_num) (by rfl) (by decide)
    rcases (Nat.Prime.dvd_mul hq).mp h with h | h
    · have hq' : q = 5 := (Nat.prime_dvd_prime_iff_eq hq hq5).mp h
      subst hq'
      have he : (18446744069414584320 : Nat) / 5 = 3689348813882916864 := by norm_num
      rw [he]
      exact zmod7pow_ne_one 3689348813882916864 1373043270956696022
        (by norm_num) (by rfl) (by decide)
    rcases (Nat.Prime.dvd_mul hq).mp h with h | h
    · have hq' : q = 17 := (Nat.prime_dvd_prime_iff_eq hq hq17).mp h
      subst hq'
      have he : (18446744069414584320 : Nat) / 17 = 1085102592318504960 := by norm_num
      rw [he]
      exact zmod7pow_ne_one 1085102592318504960 16301593560560007290
        (by norm_num) (by rfl) (by decide)
    rcases (Nat.Prime.dvd_mul hq).mp h with h | h
    · have hq' : q = 257 := (Nat.prime_dvd_prime_iff_eq hq hq257).mp h
      subst hq'
      have he : (18446744069414584320 : Nat) / 257 = 71777214277877760 := by norm_num
      rw [he]
      exact zmod7pow_ne_one 71777214277877760 995085315851368103
        (by norm_num) (by rfl) (by decide)
    · have hq' : q = 65537 := (Nat.prime_dvd_prime_iff_eq hq hq65537).mp h
      subst hq'
      have he : (18446744069414584320 : Nat) / 65537 = 281470681743360 := by norm_num
      rw [he]
      exact zmod7pow_ne_one 281470681743360 8478886009461009681
        (by norm_num) (by rfl) (by decide)

/-- The concrete prime packaged with the bounds `rand.Prime(_, 64)`
guarantees. -/
theorem goldilocks_is_rand_prime :
    Nat.Prime 18446744069414584321 ∧
      2 ^ 63 ≤ 18446744069414584321 ∧ 18446744069414584321 < 2 ^ 64 :=
  ⟨goldilocks_prime, by norm_num, by norm_num⟩

/-! ### Characterization of the per-file pipeline and the batch loop -/

/-- The per-file closure, written as one nested conditional (the `let`
bindings of the definition reduced away). -/
theorem processOneFile_eq (t : Tools) (rf : Bool) (ent : Nat → Nat)
    (dir : String) (hdr : FileHeader) :
    processOneFile t rf ent dir hdr =
      if hdr.content.isEmpty then
        Except.error "EOF"
      else if !typeAllowed t hdr.content then
        Except.error "the uploaded file type is not permitted"
      else
        Except.ok
          ({ NewFileName :=
               if rf then RandomString ent 25 ++ filepathExt hdr.filename else hdr.filename,
             OriginalFileName := hdr.filename,
             FileSize := hdr.content.length },
           joinPath dir
             (if rf then RandomString ent 25 ++ filepathExt hdr.filename else hdr.filename),
           hdr.content) :=
  rfl

/-- A part goes through the per-file closure without error exactly when the
sniff read does not hit EOF and the sniffed type passes the policy. -/
theorem processOneFile_ok_iff (t : Tools) (rf : Bool) (ent : Nat → Nat)
    (dir : String) (hdr : FileHeader) :
    (∃ v, processOneFile t rf ent dir hdr = .ok v) ↔ partPasses t hdr = true := by
  rw [processOneFile_eq]
  unfold partPasses
  cases h1 : hdr.content.isEmpty <;> cases h2 : typeAllowed t hdr.content <;>
    simp [h1, h2]

/-- Shape of a successful run of the per-file closure. -/
theorem processOneFile_ok_spec (t : Tools) (rf : Bool) (ent : Nat → Nat)
    (dir : String) (hdr : FileHeader) (uf : UploadedFile) (p : String)
    (data : List UInt8)
    (h : processOneFile t rf ent dir hdr = .ok (uf, p, data)) :
    uf.OriginalFileName = hdr.filename ∧
    uf.FileSize = hdr.content.length ∧
    data = hdr.content ∧
    p = joinPath dir uf.NewFileName ∧
    uf.NewFileName =
      (if rf then RandomString ent 25 ++ filepathExt hdr.filename else hdr.filename) := by
  rw [processOneFile_eq] at h
  cases h1 : hdr.content.isEmpty <;> rw [h1] at h
  · cases h2 : typeAllowed t hdr.content <;> rw [h2] at h
    · exact absurd h (by simp)
    · simp only [Bool.not_true, Bool.false_eq_true, if_false, if_true,
        Except.ok.injEq, Prod.mk.injEq] at h
      obtain ⟨hu, hp, hd⟩ := h
      subst hu
      subst hp
      subst hd
      exact ⟨rfl, rfl, rfl, rfl, rfl⟩
  · exact absurd h (by simp)

/-- The declared metadata of a part (Content-Type header, declared size) is
never consulted by the per-file pipeline. -/
theorem processOneFile_ignores_metadata (t : Tools) (rf : Bool) (ent : Nat → Nat)
    (dir : String) (hdr : FileHeader) (ct : String) (sz : Nat) :
    processOneFile t rf ent dir { hdr with declaredType := ct, declaredSize := sz } =
      processOneFile t rf ent dir hdr := by
  cases hdr
  rfl

/-- On an error the batch loop hands back the empty record list: the Go
closure returns `nil, err` and that nil is assigned over the accumulator. -/
theorem uploadFilesAux_err_files_nil (t : Tools) (rf : Bool)
    (entropy : Nat → Nat → Nat) (dir : String) :
    ∀ (hdrs : List FileHeader) (i : Nat) (acc : List UploadedFile)
      (ws : List (String × List UInt8)),
      ((uploadFilesAux t rf entropy dir hdrs i acc ws).2.1).isSome = true →
      (uploadFilesAux t rf entropy dir hdrs i acc ws).1 = [] := by
  intro hdrs
  induction hdrs with
  | nil =>
    intro i acc ws h
    simp [uploadFilesAux] at h
  | cons hdr rest ih =>
    intro i acc ws h
    rw [uploadFilesAux] at h ⊢
    cases hv : processOneFile t rf (entropy i) dir hdr with
    | error e => rfl
    | ok v =>
      obtain ⟨uf, w⟩ := v
      rw [hv] at h
      exact ih _ _ _ h

/-- The batch loop succeeds exactly when every remaining part passes. -/
theorem uploadFilesAux_err_none_iff (t : Tools) (rf : Bool)
    (entropy : Nat → Nat → Nat) (dir : String) :
    ∀ (hdrs : List FileHeader) (i : Nat) (acc : List UploadedFile)
      (ws : List (String × List UInt8)),
      ((uploadFilesAux t rf entropy dir hdrs i acc ws).2.1 = none ↔
        ∀ hdr ∈ hdrs, partPasses t hdr = true) := by
  intro hdrs
  induction hdrs with
  | nil =>
    intro i acc ws
    simp [uploadFilesAux]
  | cons hdr rest ih =>
    intro i acc ws
    rw [uploadFilesAux]
    cases hv : processOneFile t rf (entropy i) dir hdr with
    | error e =>
      simp only [List.mem_cons]
      constructor
      · intro h
        exact absurd h (by simp)
      · intro h
        have hp : partPasses t hdr = true := h hdr (Or.inl rfl)
        obtain ⟨v, hv'⟩ := (processOneFile_ok_iff t rf (entropy i) dir hdr).mpr hp
        rw [hv] at hv'
        exact absurd hv' (by simp)
    | ok v =>
      obtain ⟨uf, w⟩ := v
      simp only [List.mem_cons]
      constructor
      · intro h x hx
        rcases hx with hx | hx
        · subst hx
          exact (processOneFile_ok_iff t rf (entropy i) dir x).mp ⟨_, hv⟩
        · exact ((ih (i + 1) (acc ++ [uf]) (ws ++ [w])).mp h) x hx
      · intro h
        exact (ih (i + 1) (acc ++ [uf]) (ws ++ [w])).mpr (fun x hx => h x (Or.inr hx))


/-- Projections of `UploadFiles` when the body exceeds the effective bound. -/
theorem UploadFiles_big_spec (t : Tools) (r : Request) (dir : String)
    (entropy : Nat → Nat → Nat) (rename : List Bool)
    (h : (if t.MaxFileSize = 0 then { t with MaxFileSize := 1024 * 1024 * 1024 }
      else t).MaxFileSize < r.bodySize) :
    (UploadFiles t r dir entropy rename).files = [] ∧
    (UploadFiles t r dir entropy rename).err = some "the uploaded file is too big" ∧
    (UploadFiles t r dir entropy rename).writes = [] ∧
    (UploadFiles t r dir entropy rename).tools =
      (if t.MaxFileSize = 0 then { t with MaxFileSize := 1024 * 1024 * 1024 } else t) := by
  simp only [UploadFiles]
  rw [if_pos h]
  exact ⟨rfl, rfl, rfl, rfl⟩

/-- Projections of `UploadFiles` when the body is within the effective
bound: they are the projections of the batch loop. -/
theorem UploadFiles_small_spec (t : Tools) (r : Request) (dir : String)
    (entropy : Nat → Nat → Nat) (rename : List Bool)
    (h : ¬ ((if t.MaxFileSize = 0 then { t with MaxFileSize := 1024 * 1024 * 1024 }
      else t).MaxFileSize < r.bodySize)) :
    (UploadFiles t r dir entropy rename).files =
      (uploadFilesAux
        (if t.MaxFileSize = 0 then { t with MaxFileSize := 1024 * 1024 * 1024 } else t)
        (renameFlag rename)
        entropy dir (allHeaders r) 0 [] []).1 ∧
    (UploadFiles t r dir entropy rename).err =
      (uploadFilesAux
        (if t.MaxFileSize = 0 then { t with MaxFileSize := 1024 * 1024 * 1024 } else t)
        (renameFlag rename)
        entropy dir (allHeaders r) 0 [] []).2.1 ∧
    (UploadFiles t r dir entropy rename).writes =
      (uploadFilesAux
        (if t.MaxFileSize = 0 then { t with MaxFileSize := 1024 * 1024 * 1024 } else t)
        (renameFlag rename)
        entropy dir (allHeaders r) 0 [] []).2.2 ∧
    (UploadFiles t r dir entropy rename).tools =
      (if t.MaxFileSize = 0 then { t with MaxFileSize := 1024 * 1024 * 1024 } else t) := by
  simp only [UploadFiles]
  rw [if_neg h]
  exact ⟨rfl, rfl, rfl, rfl⟩


/-- The per-file pass/fail predicate only reads the allow-list, so the
MaxFileSize defaulting never changes it. -/
theorem partPasses_ite_max (t : Tools) (hdr : FileHeader) :
    partPasses (if t.MaxFileSize = 0 then { t with MaxFileSize := 1024 * 1024 * 1024 }
      else t) hdr = partPasses t hdr := by
  by_cases h0 : t.MaxFileSize = 0
  · rw [if_pos h0]
    rfl
  · rw [if_neg h0]

/-! ### C1 -/

/-- C1: a multipart body exceeding the effective decode bound
(`MaxFileSize`, defaulted to 1 GiB when zero) makes `UploadFiles` fail with
the payload-too-large error with no records and no file writes; a body of
exactly the bound passes the decoder, and the call succeeds whenever every
part passes the per-file pipeline. -/
theorem c1_payload_bound (t : Tools) (r : Request) (dir : String)
    (entropy : Nat → Nat → Nat) (rename : List Bool) :
    ((if t.MaxFileSize = 0 then 1024 * 1024 * 1024 else t.MaxFileSize) < r.bodySize →
      (UploadFiles t r dir entropy rename).err = some "the uploaded file is too big" ∧
      (UploadFiles t r dir entropy rename).files = [] ∧
      (UploadFiles t r dir entropy rename).writes = []) ∧
    (r.bodySize = (if t.MaxFileSize = 0 then 1024 * 1024 * 1024 else t.MaxFileSize) →
      (∀ hdr ∈ allHeaders r, partPasses t hdr = true) →
      (UploadFiles t r dir entropy rename).err = none) := by
  have hpp : ∀ hdr,
      partPasses (if t.MaxFileSize = 0 then { t with MaxFileSize := 1024 * 1024 * 1024 }
        else t) hdr = partPasses t hdr := by
    intro hdr
    by_cases h0 : t.MaxFileSize = 0 <;> simp [h0, partPasses, typeAllowed]
  constructor
  · intro hbig
    by_cases h0 : t.MaxFileSize = 0
    · rw [if_pos h0] at hbig
      simp [UploadFiles, h0, hbig]
    · rw [if_neg h0] at hbig
      simp [UploadFiles, h0, hbig]
  · intro heq hall
    have hnot : ¬ ((if t.MaxFileSize = 0 then { t with MaxFileSize := 1024 * 1024 * 1024 }
        else t).MaxFileSize < r.bodySize) := by
      by_cases h0 : t.MaxFileSize = 0
      · rw [if_pos h0] at heq ⊢
        show ¬ (1024 * 1024 * 1024 < r.bodySize)
        omega
      · rw [if_neg h0] at heq ⊢
        omega
    simp only [UploadFiles]
    rw [if_neg hnot]
    exact (uploadFilesAux_err_none_iff _ _ entropy dir (allHeaders r) 0 [] []).mpr
      (fun hdr hm => by rw [hpp hdr]; exact hall hdr hm)

set_option maxRecDepth 8000 in
/-- Witness for C1: with `MaxFileSize = 1024`, a 1025-byte body fails with
the payload error, and a body of exactly 1024 bytes carrying one passing
part succeeds. -/
theorem c1_payload_bound_witness :
    (UploadFiles plainTools { bodySize := 1025, files := [] } "up"
      (fun _ _ => 0) []).err = some "the uploaded file is too big" ∧
    (UploadFiles plainTools
      { bodySize := 1024,
        files := [("f",
          [{ filename := "x.bin", declaredType := "", declaredSize := 1,
             content := [65] }])] } "up" (fun _ _ => 0) []).err = none := by
  constructor
  · exact ((c1_payload_bound plainTools { bodySize := 1025, files := [] } "up"
      (fun _ _ => 0) []).1 (by decide)).1
  · exact (c1_payload_bound plainTools
      { bodySize := 1024,
        files := [("f",
          [{ filename := "x.bin", declaredType := "", declaredSize := 1,
             content := [65] }])] } "up" (fun _ _ => 0) []).2 (by decide) (by decide)

/-! ### C2 -/

/-- C2 (code bug): a batch yielding zero records makes `UploadOneFile`
evaluate `files[0]` on an empty slice — a runtime index-out-of-range panic,
not a `NoFileProvided` error: here the concrete request with no file parts
drives the model into the panic outcome. -/
theorem c2_zero_records_panics :
    UploadOneFile plainTools { bodySize := 0, files := [] } "./uploads"
      (fun _ _ => 0) [] =
    (plainTools, SingleOutcome.panic "runtime error: index out of range", []) := by
  rfl

/-! ### C3 -/

set_option maxRecDepth 100000 in
/-- Counterexample to C3: in a two-part batch whose first part is stored
successfully (one write is on disk) and whose second part fails the type
policy, the sequence returned alongside the error is empty — not the
one-record sequence of files processed before the failure — because the
closure's `nil` return is assigned over the accumulated slice. -/
theorem c3_counterexample :
    (UploadFiles textOnlyTools twoPartRequest "up" (fun _ _ => 0) [false]).err =
      some "the uploaded file type is not permitted" ∧
    (UploadFiles textOnlyTools twoPartRequest "up" (fun _ _ => 0) [false]).writes =
      [("up/a.txt", List.replicate 512 65)] ∧
    (UploadFiles textOnlyTools twoPartRequest "up" (fun _ _ => 0) [false]).files = [] := by
  refine ⟨?_, ?_, ?_⟩ <;> decide

/-- C3 amended: whenever `UploadFiles` returns an error, the record
sequence returned alongside it is empty (the per-file closure returns
`nil, err`, discarding the records of the files processed before the
failing one; those earlier files do remain on disk). -/
theorem c3_error_returns_no_records (t : Tools) (r : Request) (dir : String)
    (entropy : Nat → Nat → Nat) (rename : List Bool) (e : String)
    (h : (UploadFiles t r dir entropy rename).err = some e) :
    (UploadFiles t r dir entropy rename).files = [] := by
  by_cases hbig : ((if t.MaxFileSize = 0 then { t with MaxFileSize := 1024 * 1024 * 1024 }
      else t).MaxFileSize < r.bodySize)
  · exact (UploadFiles_big_spec t r dir entropy rename hbig).1
  · obtain ⟨hf, he, -, -⟩ := UploadFiles_small_spec t r dir entropy rename hbig
    rw [he] at h
    rw [hf]
    exact uploadFilesAux_err_files_nil _ _ entropy dir (allHeaders r) 0 [] []
      (by rw [h]; rfl)

set_option maxRecDepth 100000 in
/-- Witness for C3's amended statement at the two-part batch: the failing
batch returns the empty record sequence. -/
theorem c3_error_returns_no_records_witness :
    (UploadFiles textOnlyTools twoPartRequest "up" (fun _ _ => 0) [false]).files = [] :=
  c3_error_returns_no_records textOnlyTools twoPartRequest "up" (fun _ _ => 0) [false]
    "the uploaded file type is not permitted" (by decide)

/-! ### C4 -/

set_option maxRecDepth 100000 in
/-- Counterexample to C4: a 5-byte text part.  The sniff of the first five
actual bytes is `text/plain; charset=utf-8`, which is in the allow-list, so
under the claim the part would be accepted; but the code sniffs the
5 bytes zero-padded to the full 512-byte buffer, classifies them as binary,
and rejects the part — the decision is not made on "the first 512 bytes or
fewer if the part is shorter". -/
theorem c4_counterexample :
    detectContentType [104, 101, 108, 108, 111] = "text/plain; charset=utf-8" ∧
    "text/plain; charset=utf-8" ∈ textOnlyTools.AllowedFileTypes ∧
    (UploadFiles textOnlyTools shortTextRequest "up" (fun _ _ => 0) [false]).err =
      some "the uploaded file type is not permitted" ∧
    (UploadFiles textOnlyTools shortTextRequest "up" (fun _ _ => 0) [false]).writes = [] := by
  refine ⟨?_, ?_, ?_, ?_⟩ <;> decide

/-- C4 amended: the allow/deny decision never consults the client-declared
metadata; it compares — case-insensitively — the type sniffed from the
512-byte buffer (the part's first min(512, size) bytes zero-padded to 512)
against the allow-list; a non-empty allow-list rejects with the
unsupported-type error exactly when no entry matches; an empty allow-list
accepts every part (with non-empty content); and a batch that returns no
error contains only passing parts (a failing part aborts the batch). -/
theorem c4_sniff_policy (t : Tools) (rf : Bool) (ent : Nat → Nat) (dir : String)
    (hdr : FileHeader) (hne : hdr.content ≠ []) :
    (∀ ct sz, processOneFile t rf ent dir { hdr with declaredType := ct, declaredSize := sz } =
        processOneFile t rf ent dir hdr) ∧
    (t.AllowedFileTypes ≠ [] →
      (processOneFile t rf ent dir hdr = .error "the uploaded file type is not permitted" ↔
        t.AllowedFileTypes.any (fun x => equalFold (sniffType hdr.content) x) = false)) ∧
    (t.AllowedFileTypes = [] → ∃ v, processOneFile t rf ent dir hdr = .ok v) ∧
    (∀ (r : Request) (entropy : Nat → Nat → Nat) (rename : List Bool),
      (UploadFiles t r dir entropy rename).err = none →
        ∀ h ∈ allHeaders r, partPasses t h = true) := by
  have h1 : hdr.content.isEmpty = false := by simp [List.isEmpty_eq_false, hne]
  refine ⟨fun ct sz => processOneFile_ignores_metadata t rf ent dir hdr ct sz, ?_, ?_, ?_⟩
  · intro hAll
    have hlen : 0 < t.AllowedFileTypes.length := List.length_pos.mpr hAll
    have hTA : typeAllowed t hdr.content =
        t.AllowedFileTypes.any (fun x => equalFold (sniffType hdr.content) x) := by
      unfold typeAllowed
      rw [if_pos hlen]
    rw [processOneFile_eq, h1]
    simp only [Bool.false_eq_true, if_false]
    rw [hTA]
    cases hA : t.AllowedFileTypes.any (fun x => equalFold (sniffType hdr.content) x)
    · simp
    · simp
  · intro hAll
    refine (processOneFile_ok_iff t rf ent dir hdr).mpr ?_
    unfold partPasses typeAllowed
    simp [hAll, h1]
  · intro r entropy rename hnone h hm
    by_cases hbig : ((if t.MaxFileSize = 0 then { t with MaxFileSize := 1024 * 1024 * 1024 }
        else t).MaxFileSize < r.bodySize)
    · rw [(UploadFiles_big_spec t r dir entropy rename hbig).2.1] at hnone
      exact absurd hnone (by simp)
    · obtain ⟨-, he, -, -⟩ := UploadFiles_small_spec t r dir entropy rename hbig
      rw [he] at hnone
      have hp := (uploadFilesAux_err_none_iff _ _ entropy dir (allHeaders r) 0 [] []).mp
        hnone h hm
      rwa [partPasses_ite_max] at hp

set_option maxRecDepth 100000 in
/-- Witness for C4's amended statement, instantiated at the 5-byte text
part under the text-only policy. -/
theorem c4_sniff_policy_witness :
    (∀ ct sz, processOneFile textOnlyTools false (fun _ => 0) "up"
        { filename := "note.txt", declaredType := ct, declaredSize := sz,
          content := [104, 101, 108, 108, 111] } =
      processOneFile textOnlyTools false (fun _ => 0) "up"
        { filename := "note.txt", declaredType := "text/plain", declaredSize := 5,
          content := [104, 101, 108, 108, 111] }) ∧
    (textOnlyTools.AllowedFileTypes ≠ [] →
      (processOneFile textOnlyTools false (fun _ => 0) "up"
          { filename := "note.txt", declaredType := "text/plain", declaredSize := 5,
            content := [104, 101, 108, 108, 111] } =
          .error "the uploaded file type is not permitted" ↔
        textOnlyTools.AllowedFileTypes.any
          (fun x => equalFold (sniffType [104, 101, 108, 108, 111]) x) = false)) ∧
    (textOnlyTools.AllowedFileTypes = [] →
      ∃ v, processOneFile textOnlyTools false (fun _ => 0) "up"
        { filename := "note.txt", declaredType := "text/plain", declaredSize := 5,
          content := [104, 101, 108, 108, 111] } = .ok v) ∧
    (∀ (r : Request) (entropy : Nat → Nat → Nat) (rename : List Bool),
      (UploadFiles textOnlyTools r "up" entropy rename).err = none →
        ∀ h ∈ allHeaders r, partPasses textOnlyTools h = true) :=
  c4_sniff_policy textOnlyTools false (fun _ => 0) "up"
    { filename := "note.txt", declaredType := "text/plain", declaredSize := 5,
      content := [104, 101, 108, 108, 111] } (by decide)

/-! ### C5 -/

/-- C5: for every successfully stored file the record's `FileSize` equals
the byte length of the data written to the destination, which is the
entire uploaded content (the stream is rewound to offset 0 after the
sniff, so the sniffed bytes are included); and the outcome is independent
of the size (and type) declared in the request metadata. -/
theorem c5_bytecount_exact (t : Tools) (rf : Bool) (ent : Nat → Nat) (dir : String)
    (hdr : FileHeader) (uf : UploadedFile) (p : String) (data : List UInt8)
    (h : processOneFile t rf ent dir hdr = .ok (uf, p, data)) :
    uf.FileSize = data.length ∧
    data = hdr.content ∧
    uf.FileSize = hdr.content.length ∧
    (∀ sz ct, processOneFile t rf ent dir { hdr with declaredType := ct, declaredSize := sz } =
      .ok (uf, p, data)) := by
  obtain ⟨-, hsize, hdata, -, -⟩ := processOneFile_ok_spec t rf ent dir hdr uf p data h
  subst hdata
  exact ⟨hsize, rfl, hsize, fun sz ct =>
    (processOneFile_ignores_metadata t rf ent dir hdr ct sz).trans h⟩

set_option maxRecDepth 100000 in
/-- Witness for C5 at a concrete 3-byte upload without rename. -/
theorem c5_bytecount_exact_witness :
    ({ NewFileName := "v.txt", OriginalFileName := "v.txt", FileSize := 3 } :
        UploadedFile).FileSize = ([65, 66, 67] : List UInt8).length ∧
    ([65, 66, 67] : List UInt8) = ([65, 66, 67] : List UInt8) ∧
    ({ NewFileName := "v.txt", OriginalFileName := "v.txt", FileSize := 3 } :
        UploadedFile).FileSize = ([65, 66, 67] : List UInt8).length ∧
    (∀ sz ct, processOneFile plainTools false (fun _ => 0) "up"
        { filename := "v.txt", declaredType := ct, declaredSize := sz,
          content := [65, 66, 67] } =
      .ok ({ NewFileName := "v.txt", OriginalFileName := "v.txt", FileSize := 3 },
           "up/v.txt", [65, 66, 67])) :=
  c5_bytecount_exact plainTools false (fun _ => 0) "up"
    { filename := "v.txt", declaredType := "", declaredSize := 9,
      content := [65, 66, 67] }
    { NewFileName := "v.txt", OriginalFileName := "v.txt", FileSize := 3 }
    "up/v.txt" [65, 66, 67] (by rfl)

/-! ### C6 -/

set_option maxRecDepth 100000 in
/-- Counterexample to C6 at N = 0: an empty uploaded file passes every
policy (the allow-list is empty), yet the upload fails — the sniff read
`infile.Read(buff)` returns `io.EOF` on an empty part and the closure
propagates it — so nothing is stored and no round-trip happens. -/
theorem c6_counterexample_empty_file :
    (UploadFiles plainTools
      { bodySize := 0,
        files := [("file",
          [{ filename := "e.txt", declaredType := "", declaredSize := 0,
             content := [] }])] } "up" (fun _ _ => 0) []).err = some "EOF" ∧
    (UploadFiles plainTools
      { bodySize := 0,
        files := [("file",
          [{ filename := "e.txt", declaredType := "", declaredSize := 0,
             content := [] }])] } "up" (fun _ _ => 0) []).writes = [] ∧
    (UploadFiles plainTools
      { bodySize := 0,
        files := [("file",
          [{ filename := "e.txt", declaredType := "", declaredSize := 0,
             content := [] }])] } "up" (fun _ _ => 0) []).files = [] := by
  refine ⟨?_, ?_, ?_⟩ <;> decide

/-- C6 amended: for every uploaded file of N ≥ 1 bytes that passes policy
(so in particular for N in {1, 511, 512, 513, 10000000}), the upload
succeeds and the destination file holds exactly the original N bytes;
N = 0 is excluded because the sniff read fails with EOF on an empty part. -/
theorem c6_roundtrip (t : Tools) (dir field : String) (entropy : Nat → Nat → Nat)
    (rename : List Bool) (hdr : FileHeader) (bs : Nat)
    (hne : hdr.content ≠ []) (hallow : t.AllowedFileTypes = [])
    (hbs : bs ≤ (if t.MaxFileSize = 0 then 1024 * 1024 * 1024 else t.MaxFileSize)) :
    ∃ name,
      (UploadFiles t { bodySize := bs, files := [(field, [hdr])] } dir entropy rename).err =
        none ∧
      (UploadFiles t { bodySize := bs, files := [(field, [hdr])] } dir entropy rename).writes =
        [(joinPath dir name, hdr.content)] ∧
      (UploadFiles t { bodySize := bs, files := [(field, [hdr])] } dir entropy rename).files =
        [{ NewFileName := name, OriginalFileName := hdr.filename,
           FileSize := hdr.content.length }] := by
  have hnot : ¬ ((if t.MaxFileSize = 0 then { t with MaxFileSize := 1024 * 1024 * 1024 }
      else t).MaxFileSize <
        ({ bodySize := bs, files := [(field, [hdr])] } : Request).bodySize) := by
    by_cases h0 : t.MaxFileSize = 0
    · rw [if_pos h0] at hbs ⊢
      show ¬ (1024 * 1024 * 1024 < bs)
      omega
    · rw [if_neg h0] at hbs ⊢
      show ¬ (t.MaxFileSize < bs)
      omega
  obtain ⟨hf, he, hw, -⟩ :=
    UploadFiles_small_spec t { bodySize := bs, files := [(field, [hdr])] } dir entropy
      rename hnot
  have hp : partPasses t hdr = true := by
    unfold partPasses typeAllowed
    simp [hallow, List.isEmpty_eq_false, hne]
  have hp' : partPasses (if t.MaxFileSize = 0 then { t with MaxFileSize := 1024 * 1024 * 1024 }
      else t) hdr = true := by
    rw [partPasses_ite_max]
    exact hp
  obtain ⟨⟨uf, p, data⟩, hv⟩ :=
    (processOneFile_ok_iff _ (renameFlag rename)
      (entropy 0) dir hdr).mpr hp'
  obtain ⟨hOrig, hSize, hData, hPath, -⟩ := processOneFile_ok_spec _ _ _ _ _ _ _ _ hv
  have hAH : allHeaders { bodySize := bs, files := [(field, [hdr])] } = [hdr] := rfl
  have haux : uploadFilesAux
      (if t.MaxFileSize = 0 then { t with MaxFileSize := 1024 * 1024 * 1024 } else t)
      (renameFlag rename) entropy dir [hdr] 0 [] [] =
      ([uf], none, [(p, data)]) := by
    simp [uploadFilesAux, hv]
  refine ⟨uf.NewFileName, ?_, ?_, ?_⟩
  · rw [he, hAH, haux]
  · rw [hw, hAH, haux, hPath, hData]
  · rw [hf, hAH, haux]
    obtain ⟨nn, onm, fs⟩ := uf
    have h2 : onm = hdr.filename := hOrig
    have h3 : fs = hdr.content.length := hSize
    rw [h2, h3]

set_option maxRecDepth 100000 in
/-- Witness for C6's amended statement at a 1-byte upload. -/
theorem c6_roundtrip_witness :
    ∃ name,
      (UploadFiles plainTools
        { bodySize := 1,
          files := [("f",
            [{ filename := "w.bin", declaredType := "", declaredSize := 1,
               content := [66] }])] } "up" (fun _ _ => 0) []).err = none ∧
      (UploadFiles plainTools
        { bodySize := 1,
          files := [("f",
            [{ filename := "w.bin", declaredType := "", declaredSize := 1,
               content := [66] }])] } "up" (fun _ _ => 0) []).writes =
        [(joinPath "up" name, [66])] ∧
      (UploadFiles plainTools
        { bodySize := 1,
          files := [("f",
            [{ filename := "w.bin", declaredType := "", declaredSize := 1,
               content := [66] }])] } "up" (fun _ _ => 0) []).files =
        [{ NewFileName := name, OriginalFileName := "w.bin", FileSize := 1 }] :=
  c6_roundtrip plainTools "up" "f" (fun _ _ => 0) []
    { filename := "w.bin", declaredType := "", declaredSize := 1, content := [66] }
    1 (by decide) (by decide) (by decide)

/-! ### C7 -/

set_option maxRecDepth 100000 in
/-- Counterexample to C7's "storedName never equals originalName": the
constant entropy stream drawing the 64-bit prime 2^64 - 2^32 + 1 (a value
`rand.Prime(rand.Reader, 64)` can return, as certified by the first
conjunct) makes `RandomString(25)` produce twenty-five 'b's, so a file
declared as "bbbbbbbbbbbbbbbbbbbbbbbbb" (no extension) is stored under a
name equal to its original name even though renaming is on. -/
theorem c7_counterexample :
    (Nat.Prime 18446744069414584321 ∧ 2 ^ 63 ≤ 18446744069414584321 ∧
      18446744069414584321 < 2 ^ 64) ∧
    renameFlag [] = true ∧
    (UploadFiles plainTools
      { bodySize := 1,
        files := [("f",
          [{ filename := "bbbbbbbbbbbbbbbbbbbbbbbbb", declaredType := "",
             declaredSize := 1, content := [66] }])] } "up"
      (fun _ _ => 18446744069414584321) []).files =
      [{ NewFileName := "bbbbbbbbbbbbbbbbbbbbbbbbb",
         OriginalFileName := "bbbbbbbbbbbbbbbbbbbbbbbbb", FileSize := 1 }] := by
  refine ⟨goldilocks_is_rand_prime, rfl, ?_⟩
  decide

/-- C7 amended: under rename the stored name is the 25-character random
identifier (every character drawn from the 64-character source alphabet of
letters, digits, '_' and '+') followed by the original name's extension
verbatim; without rename the stored name is exactly the original name.
Equality of stored and original name under rename is possible — the
counterexample exhibits an entropy stream realizing it — though never by
more than the random identifier happening to spell the original name. -/
theorem c7_stored_name_format (t : Tools) (rf : Bool) (ent : Nat → Nat) (dir : String)
    (hdr : FileHeader) (uf : UploadedFile) (p : String) (data : List UInt8)
    (h : processOneFile t rf ent dir hdr = .ok (uf, p, data)) :
    (rf = true →
      uf.NewFileName = RandomString ent 25 ++ filepathExt hdr.filename ∧
      (RandomString ent 25).length = 25 ∧
      (∀ c ∈ (RandomString ent 25).data, c ∈ randomStringSource.data)) ∧
    (rf = false →
      uf.NewFileName = hdr.filename ∧ uf.NewFileName = uf.OriginalFileName) := by
  obtain ⟨hOrig, -, -, -, hName⟩ := processOneFile_ok_spec t rf ent dir hdr uf p data h
  constructor
  · intro hrf
    subst hrf
    rw [if_pos rfl] at hName
    refine ⟨hName, ?_, ?_⟩
    · simp only [RandomString, String.length, List.length_map, List.length_range]
    · intro c hc
      simp only [RandomString, String.data] at hc
      obtain ⟨i, hi, hci⟩ := List.mem_map.mp hc
      have hlt : (ent i % 2 ^ 64) % randomStringSource.data.length <
          randomStringSource.data.length := Nat.mod_lt _ (by decide)
      rw [← hci, List.getD_eq_getElem _ _ hlt]
      exact List.getElem_mem ..
  · intro hrf
    subst hrf
    rw [if_neg (by simp)] at hName
    exact ⟨hName, by rw [hName, hOrig]⟩

set_option maxRecDepth 100000 in
/-- Witness for C7's amended statement at a renamed 1-byte upload with the
zero entropy stream (drawing source index 0, hence 'a's). -/
theorem c7_stored_name_format_witness :
    (true = true →
      ({ NewFileName := "aaaaaaaaaaaaaaaaaaaaaaaaa.txt", OriginalFileName := "x.txt",
         FileSize := 1 } : UploadedFile).NewFileName =
        RandomString (fun _ => 0) 25 ++ filepathExt "x.txt" ∧
      (RandomString (fun _ => 0) 25).length = 25 ∧
      (∀ c ∈ (RandomString (fun _ => 0) 25).data, c ∈ randomStringSource.data)) ∧
    (true = false →
      ({ NewFileName := "aaaaaaaaaaaaaaaaaaaaaaaaa.txt", OriginalFileName := "x.txt",
         FileSize := 1 } : UploadedFile).NewFileName = "x.txt" ∧
      ({ NewFileName := "aaaaaaaaaaaaaaaaaaaaaaaaa.txt", OriginalFileName := "x.txt",
         FileSize := 1 } : UploadedFile).NewFileName =
      ({ NewFileName := "aaaaaaaaaaaaaaaaaaaaaaaaa.txt", OriginalFileName := "x.txt",
         FileSize := 1 } : UploadedFile).OriginalFileName) :=
  c7_stored_name_format plainTools true (fun _ => 0) "up"
    { filename := "x.txt", declaredType := "", declaredSize := 1, content := [65] }
    { NewFileName := "aaaaaaaaaaaaaaaaaaaaaaaaa.txt", OriginalFileName := "x.txt",
      FileSize := 1 }
    "up/aaaaaaaaaaaaaaaaaaaaaaaaa.txt" [65] (by rfl)

/-! ### C8 -/

theorem splitOnSlash_ne_nil (cs : List Char) : splitOnSlash cs ≠ [] := by
  cases cs with
  | nil => simp [splitOnSlash]
  | cons c rest =>
    rw [splitOnSlash]
    cases h : splitOnSlash rest with
    | nil => simp
    | cons seg segs => by_cases hc : c = '/' <;> simp [hc]

theorem joinSegs_splitOnSlash (cs : List Char) : joinSegs (splitOnSlash cs) = cs := by
  induction cs with
  | nil => rfl
  | cons c rest ih =>
    cases h : splitOnSlash rest with
    | nil => exact absurd h (splitOnSlash_ne_nil rest)
    | cons seg segs =>
      rw [h] at ih
      by_cases hc : c = '/'
      · subst hc
        simp only [splitOnSlash, h, if_pos rfl]
        cases segs with
        | nil => simpa [joinSegs] using ih
        | cons s2 ss => simpa [joinSegs] using ih
      · simp only [splitOnSlash, h, if_neg hc]
        cases segs with
        | nil => simpa [joinSegs] using congrArg (c :: ·) ih
        | cons s2 ss =>
          simp only [joinSegs] at ih ⊢
          rw [List.cons_append, ih]

/-- Every path is the last element of its own creation chain. -/
theorem self_mem_pathChain (p : String) : p ∈ pathChain p := by
  unfold pathChain
  have hlen : 0 < (splitOnSlash p.data).length :=
    List.length_pos.mpr (splitOnSlash_ne_nil _)
  refine List.mem_map.mpr ⟨(splitOnSlash p.data).length - 1, List.mem_range.mpr (by omega), ?_⟩
  rw [Nat.sub_add_cancel hlen, List.take_length, joinSegs_splitOnSlash]

theorem lookup_map_const (a : String) (l : List String) (e : FSEntry) (h : a ∈ l) :
    (l.map (fun q => (q, e))).lookup a = some e := by
  induction l with
  | nil => simp at h
  | cons x xs ih =>
    rw [List.map_cons, List.lookup]
    by_cases hax : (a == x) = true
    · simp [hax]
    · have hmem : a ∈ xs := by
        rcases List.mem_cons.mp h with h1 | h1
        · exact absurd (by simp [h1]) hax
        · exact h1
      simp [hax, ih hmem]

/-- Stat after appending fresh entries: first the original bindings, then
the new ones. -/
theorem stat_append (fs : FileSystem) (l : List (String × FSEntry)) (q : String) :
    FileSystem.stat { entries := fs.entries ++ l } q = (fs.stat q).or (l.lookup q) := by
  unfold FileSystem.stat
  exact List.lookup_append

/-- Counterexample to C8: a path existing as a regular file makes `os.Stat`
succeed, so `CreateDirIfNotExist` skips `MkdirAll` and returns nil — it
does not fail as the claim requires. -/
theorem c8_counterexample :
    FileSystem.stat { entries := [("data", FSEntry.file)] } "data" = some FSEntry.file ∧
    CreateDirIfNotExist { entries := [("data", FSEntry.file)] } "data" =
      ({ entries := [("data", FSEntry.file)] }, none) :=
  ⟨rfl, rfl⟩

/-- C8 amended: `CreateDirIfNotExist` returns nil without touching the
filesystem whenever the path already exists — as a directory or as any
other kind of entry; when the path is absent (and no member of its chain is
a regular file, so the modelled `MkdirAll` succeeds) it creates the path
and every missing ancestor as directories with mode 0755 and returns
nil. -/
theorem c8_ensure_directory (fs : FileSystem) (p : String) :
    (∀ e, fs.stat p = some e → CreateDirIfNotExist fs p = (fs, none)) ∧
    (fs.stat p = none →
      (∀ q ∈ pathChain p, fs.stat q ≠ some FSEntry.file) →
      (CreateDirIfNotExist fs p).2 = none ∧
      ((CreateDirIfNotExist fs p).1).stat p = some (FSEntry.dir 0o755) ∧
      (∀ q ∈ pathChain p, ((CreateDirIfNotExist fs p).1).stat q ≠ none) ∧
      (∀ q ∈ pathChain p, fs.stat q = none →
        ((CreateDirIfNotExist fs p).1).stat q = some (FSEntry.dir 0o755))) := by
  constructor
  · intro e he
    unfold CreateDirIfNotExist
    rw [he]
  · intro hnone hnofile
    unfold CreateDirIfNotExist
    rw [hnone]
    unfold mkdirAll
    have hcond : ((pathChain p).any (fun q =>
        match fs.stat q with
        | some .file => true
        | _ => false)) = false := by
      rw [List.any_eq_false]
      intro q hq
      cases hstat : fs.stat q with
      | none => simp
      | some e =>
        cases e with
        | file => exact absurd hstat (hnofile q hq)
        | dir m => simp
    rw [hcond]
    simp only [Bool.false_eq_true, if_false]
    have hstat' : ∀ q, FileSystem.stat
        { entries := fs.entries ++
            ((pathChain p).filter (fun q => (fs.stat q).isNone)).map
              (fun q => (q, FSEntry.dir 0o755)) } q =
        (fs.stat q).or
          ((((pathChain p).filter (fun q => (fs.stat q).isNone)).map
            (fun q => (q, FSEntry.dir 0o755))).lookup q) := fun q => stat_append fs _ q
    refine ⟨by trivial, ?_, ?_, ?_⟩
    · rw [hstat' p, hnone]
      rw [lookup_map_const p _ _ (List.mem_filter.mpr
        ⟨self_mem_pathChain p, by rw [hnone]; rfl⟩)]
      rfl
    · intro q hq
      rw [hstat' q]
      cases hstat : fs.stat q with
      | some e => simp
      | none =>
        rw [lookup_map_const q _ _ (List.mem_filter.mpr ⟨hq, by rw [hstat]; rfl⟩)]
        simp
    · intro q hq hqnone
      rw [hstat' q, hqnone]
      rw [lookup_map_const q _ _ (List.mem_filter.mpr ⟨hq, by rw [hqnone]; rfl⟩)]
      rfl

set_option maxRecDepth 8000 in
/-- Witness for C8's amended statement: creating "a/b" on an empty
filesystem creates both "a" and "a/b" as 0755 directories. -/
theorem c8_ensure_directory_witness :
    (CreateDirIfNotExist { entries := [] } "a/b").2 = none ∧
    ((CreateDirIfNotExist { entries := [] } "a/b").1).stat "a/b" =
      some (FSEntry.dir 0o755) ∧
    (∀ q ∈ pathChain "a/b",
      ((CreateDirIfNotExist { entries := [] } "a/b").1).stat q ≠ none) ∧
    (∀ q ∈ pathChain "a/b",
      FileSystem.stat { entries := [] } q = none →
        ((CreateDirIfNotExist { entries := [] } "a/b").1).stat q =
          some (FSEntry.dir 0o755)) :=
  (c8_ensure_directory { entries := [] } "a/b").2 (by decide) (by decide)

/-! ### C9 -/

/-- Counterexample to C9: with `MaxFileSize = 0` the call writes the 1 GiB
default back into the receiver, so the configuration value observed after
the call differs from the one before it. -/
theorem c9_counterexample :
    (UploadFiles { MaxFileSize := 0, AllowedFileTypes := [], MaxJSONSize := 0,
                   AllowUnknownFields := false }
      { bodySize := 0, files := [] } "up" (fun _ _ => 0) []).tools ≠
    { MaxFileSize := 0, AllowedFileTypes := [], MaxJSONSize := 0,
      AllowUnknownFields := false } := by
  decide

/-- C9 amended: `UploadFiles` leaves `AllowedFileTypes`, `MaxJSONSize` and
`AllowUnknownFields` untouched and leaves `MaxFileSize` untouched whenever
it is non-zero; but when `MaxFileSize` is zero the call mutates it to the
1 GiB default (tools.go lines 92-94), so the policy is not preserved in
that one case. -/
theorem c9_policy_mutation (t : Tools) (r : Request) (dir : String)
    (entropy : Nat → Nat → Nat) (rename : List Bool) :
    (UploadFiles t r dir entropy rename).tools =
      (if t.MaxFileSize = 0 then { t with MaxFileSize := 1024 * 1024 * 1024 } else t) ∧
    (UploadFiles t r dir entropy rename).tools.AllowedFileTypes = t.AllowedFileTypes ∧
    (UploadFiles t r dir entropy rename).tools.MaxJSONSize = t.MaxJSONSize ∧
    (UploadFiles t r dir entropy rename).tools.AllowUnknownFields = t.AllowUnknownFields ∧
    (t.MaxFileSize ≠ 0 → (UploadFiles t r dir entropy rename).tools = t) := by
  have heq : (UploadFiles t r dir entropy rename).tools =
      (if t.MaxFileSize = 0 then { t with MaxFileSize := 1024 * 1024 * 1024 } else t) := by
    by_cases hbig : ((if t.MaxFileSize = 0 then { t with MaxFileSize := 1024 * 1024 * 1024 }
        else t).MaxFileSize < r.bodySize)
    · exact (UploadFiles_big_spec t r dir entropy rename hbig).2.2.2
    · exact (UploadFiles_small_spec t r dir entropy rename hbig).2.2.2
  rw [heq]
  by_cases h0 : t.MaxFileSize = 0
  · rw [if_pos h0]
    exact ⟨rfl, rfl, rfl, rfl, fun hne => absurd h0 hne⟩
  · rw [if_neg h0]
    exact ⟨rfl, rfl, rfl, rfl, fun _ => rfl⟩

/-- Witness for C9's amended statement: with a non-zero `MaxFileSize` the
receiver comes back exactly as it went in. -/
theorem c9_policy_mutation_witness :
    (UploadFiles plainTools { bodySize := 0, files := [] } "up"
      (fun _ _ => 0) []).tools = plainTools :=
  (c9_policy_mutation plainTools { bodySize := 0, files := [] } "up"
    (fun _ _ => 0) []).2.2.2.2 (by decide)

/-! ### C10 -/

/-- C10: whatever 64-bit primes the entropy stream draws, each character of
`RandomString n` is the character of `randomStringSource` at an odd index —
the prime is odd (it exceeds 2, being 64 bits long) and an odd number mod
64 is odd — and consequently the characters at even indices, 'a', 'c', '0'
and '_' among them, can never appear: the effective alphabet is halved. -/
theorem c10_random_string_odd_indices (primes : Nat → Nat)
    (hp : ∀ i, Nat.Prime (primes i) ∧ 2 ^ 63 ≤ primes i ∧ primes i < 2 ^ 64) (n : Nat) :
    (∀ i, i < n → ∃ j, j < 64 ∧ j % 2 = 1 ∧
      (RandomString primes n).data[i]? = randomStringSource.data[j]?) ∧
    (∀ c ∈ (RandomString primes n).data, c ∉ (['a', 'c', '0', '_'] : List Char)) := by
  have hsrc : randomStringSource.data.length = 64 := by decide
  have hodd : ∀ i, ((primes i % 2 ^ 64) % randomStringSource.data.length) % 2 = 1 := by
    intro i
    obtain ⟨hprime, hlo, hhi⟩ := hp i
    have hne2 : primes i ≠ 2 := by
      intro h2
      rw [h2] at hlo
      norm_num at hlo
    have h1 : primes i % 2 = 1 := Nat.odd_iff.mp (hprime.odd_of_ne_two hne2)
    rw [hsrc]
    rw [Nat.mod_mod_of_dvd _ (by norm_num : (2 : Nat) ∣ 64)]
    rw [Nat.mod_mod_of_dvd _ (by norm_num : (2 : Nat) ∣ 2 ^ 64)]
    exact h1
  have hchar : ∀ i, randomStringSource.data.getD
      ((primes i % 2 ^ 64) % randomStringSource.data.length) ' ' =
      randomStringSource.data.getD ((primes i % 2 ^ 64) % 64) ' ' := by
    intro i
    rw [hsrc]
  constructor
  · intro i hi
    refine ⟨(primes i % 2 ^ 64) % randomStringSource.data.length,
      by rw [hsrc]; exact Nat.mod_lt _ (by norm_num), hodd i, ?_⟩
    have hlt : (primes i % 2 ^ 64) % randomStringSource.data.length <
        randomStringSource.data.length := Nat.mod_lt _ (by rw [hsrc]; norm_num)
    simp only [RandomString, String.data]
    rw [List.getElem?_map]
    rw [List.getElem?_range hi]
    rw [List.getElem?_eq_getElem hlt]
    simp only [Option.map_some']
    rw [List.getD_eq_getElem _ _ hlt]
  · intro c hc
    simp only [RandomString, String.data] at hc
    obtain ⟨i, hi, hci⟩ := List.mem_map.mp hc
    have hj := hodd i
    have hlt : (primes i % 2 ^ 64) % randomStringSource.data.length <
        randomStringSource.data.length := Nat.mod_lt _ (by rw [hsrc]; norm_num)
    have hgen : ∀ j, j < 64 → j % 2 = 1 →
        randomStringSource.data.getD j ' ' ∉ (['a', 'c', '0', '_'] : List Char) := by
      decide
    rw [← hci]
    exact hgen _ (by rw [← hsrc]; exact hlt) hj

set_option maxRecDepth 100000 in
/-- Witness for C10 with the constant stream drawing the certified 64-bit
prime 2^64 - 2^32 + 1, at n = 3. -/
theorem c10_random_string_odd_indices_witness :
    (∀ i : Nat, Nat.Prime ((fun _ => 18446744069414584321) i : Nat) ∧
      2 ^ 63 ≤ ((fun _ => 18446744069414584321) i : Nat) ∧
      ((fun _ => 18446744069414584321) i : Nat) < 2 ^ 64) ∧
    ((∀ i, i < 3 → ∃ j, j < 64 ∧ j % 2 = 1 ∧
      (RandomString (fun _ => 18446744069414584321) 3).data[i]? =
        randomStringSource.data[j]?) ∧
    (∀ c ∈ (RandomString (fun _ => 18446744069414584321) 3).data,
      c ∉ (['a', 'c', '0', '_'] : List Char))) :=
  ⟨fun _ => goldilocks_is_rand_prime,
   c10_random_string_odd_indices (fun _ => 18446744069414584321)
     (fun _ => goldilocks_is_rand_prime) 3⟩
